import Mathlib

/-!
Shallow embedding of the fetch-lifecycle logic of `src/App.tsx`
(react-race-condition-demo).

The repository contains a simulated remote source `fetchUserData`, an
unguarded fetch controller (`WithoutCleanup`), and a liveness-guarded
fetch controller (`WithCleanup`).  All "concurrency" in the source is
single-threaded cooperative scheduling: effect bodies and promise
completion handlers run to completion without preemption.  We model an
execution as a list of atomic events applied to an explicit state:

* `Event.change uid` — the shared identifier changes to `uid` (or the
  component mounts): React runs the previous effect's cleanup function
  (guarded controller only) and then the new effect body, which sets
  `loading` and starts a new fetch invocation.
* `Event.settle k ok` — the promise of the `k`-th started invocation
  (counted from the oldest, i.e. `k` is the cycle number) settles;
  `ok = true` is a resolution carrying the fetched `UserData`,
  `ok = false` an injected rejection.

Invocations are recorded in start order together with (for the guarded
controller) the `isMounted` cell captured by that invocation's `.then`
handler.
-/

namespace RaceDemo

/-- The record `type UserData = {id, name, email}` from `src/App.tsx`. -/
structure UserData where
  id : Nat
  name : String
  email : String
deriving DecidableEq, Repr

/-- The value a resolved `fetchUserData(userId)` promise carries
(`resolve({id: userId, name: `User ${userId}`, email: ...})`). -/
def fetchUserData (userId : Nat) : UserData :=
  { id := userId
    name := "User " ++ toString userId
    email := "user" ++ toString userId ++ "@example.com" }

/-- The delay `const delay = userId === 1 ? 3000 : 1000;` from `fetchUserData`. -/
def fetchDelay (userId : Nat) : Nat :=
  if userId = 1 then 3000 else 1000

/-- The display state of one controller:
`data` (`useState<UserData | null>(null)`) and `loading`
(`useState(true)`). -/
structure Display where
  data : Option UserData
  loading : Bool
deriving DecidableEq, Repr

/-- One fetch invocation of the guarded controller: the identifier it
was started with and the `isMounted` cell its completion handler
captured. -/
structure Invocation where
  userId : Nat
  isMounted : Bool
deriving DecidableEq, Repr

/-- An atomic scheduler event (see module docstring). -/
inductive Event where
  | change (uid : Nat)
  | settle (k : Nat) (ok : Bool)
deriving DecidableEq, Repr

/-! ## Guarded controller (`WithCleanup`) -/

/-- State of a `WithCleanup` instance: its display state and the
invocations it has started, oldest first (index = cycle number). -/
structure GuardedState where
  display : Display
  invocations : List Invocation
deriving DecidableEq, Repr

/-- Initial state `useState(null)` / `useState(true)`: the state before
the first effect runs. -/
def guardedInit : GuardedState :=
  { display := { data := none, loading := true }, invocations := [] }

/-- The cleanup function returned by the guarded effect:
`isMounted = false` for the most recently started cycle. -/
def invalidateLast (invs : List Invocation) : List Invocation :=
  match invs.getLast? with
  | none => invs
  | some inv => invs.dropLast ++ [{ inv with isMounted := false }]

/-- React running the previous effect's cleanup before re-running the
effect: sets the prior cycle's liveness flag to false. -/
def teardown (s : GuardedState) : GuardedState :=
  { s with invocations := invalidateLast s.invocations }

/-- The guarded effect body: `setLoading(true)`, allocate a fresh
`isMounted = true`, and start `fetchUser()` for the current
identifier. -/
def startCycle (uid : Nat) (s : GuardedState) : GuardedState :=
  { display := { s.display with loading := true }
    invocations := s.invocations ++ [{ userId := uid, isMounted := true }] }

/-- Settlement of invocation `k`'s promise in the guarded controller.
On resolution the `.then` handler reads its captured `isMounted`: if
true it applies `setData(userData); setLoading(false)`, otherwise it
mutates nothing.  The source registers no rejection handler, so an
injected rejection (`ok = false`) runs no code. -/
def guardedSettle (k : Nat) (ok : Bool) (s : GuardedState) : GuardedState :=
  match s.invocations[k]? with
  | none => s
  | some inv =>
    if ok then
      if inv.isMounted then
        { s with display :=
            { data := some (fetchUserData inv.userId), loading := false } }
      else s
    else s

/-- One atomic event of the guarded controller.  An identifier change
runs the prior cycle's teardown strictly before the new cycle starts
(React's cleanup-before-effect ordering). -/
def guardedStep (s : GuardedState) : Event → GuardedState
  | .change uid => startCycle uid (teardown s)
  | .settle k ok => guardedSettle k ok s

/-- Run the guarded controller from its initial state through a list of
events. -/
def guardedRun (es : List Event) : GuardedState :=
  es.foldl guardedStep guardedInit

/-! ## Unguarded controller (`WithoutCleanup`) -/

/-- State of a `WithoutCleanup` instance: its display state and the
identifiers of the invocations it has started, oldest first.  No
liveness flags exist. -/
structure UnguardedState where
  display : Display
  invocations : List Nat
deriving DecidableEq, Repr

/-- The state before the first effect runs. -/
def unguardedInit : UnguardedState :=
  { display := { data := none, loading := true }, invocations := [] }

/-- Settlement of invocation `k`'s promise in the unguarded controller:
on resolution the handler unconditionally applies
`setData(userData); setLoading(false)`.  No rejection handler is
registered. -/
def unguardedSettle (k : Nat) (ok : Bool) (s : UnguardedState) : UnguardedState :=
  match s.invocations[k]? with
  | none => s
  | some uid =>
    if ok then
      { s with display :=
          { data := some (fetchUserData uid), loading := false } }
    else s

/-- One atomic event of the unguarded controller.  The effect has no
cleanup function: a change just sets `loading` and starts a fetch. -/
def unguardedStep (s : UnguardedState) : Event → UnguardedState
  | .change uid =>
      { display := { s.display with loading := true }
        invocations := s.invocations ++ [uid] }
  | .settle k ok => unguardedSettle k ok s

/-- Run the unguarded controller from its initial state. -/
def unguardedRun (es : List Event) : UnguardedState :=
  es.foldl unguardedStep unguardedInit

/-! ## Basic lemmas about the settle handlers -/

theorem invalidateLast_nil : invalidateLast [] = [] := rfl

theorem invalidateLast_concat (xs : List Invocation) (x : Invocation) :
    invalidateLast (xs ++ [x]) = xs ++ [{ x with isMounted := false }] := by
  simp [invalidateLast, List.getLast?_concat, List.dropLast_concat]

theorem length_invalidateLast (invs : List Invocation) :
    (invalidateLast invs).length = invs.length := by
  induction invs using List.reverseRecOn with
  | nil => rfl
  | append_singleton xs x _ => rw [invalidateLast_concat]; simp

theorem guardedSettle_none (k : Nat) (ok : Bool) (s : GuardedState)
    (h : s.invocations[k]? = none) : guardedSettle k ok s = s := by
  unfold guardedSettle; rw [h]

theorem guardedSettle_reject (k : Nat) (s : GuardedState) :
    guardedSettle k false s = s := by
  unfold guardedSettle
  split
  · rfl
  · rfl

theorem guardedSettle_stale (k : Nat) (s : GuardedState) (inv : Invocation)
    (h : s.invocations[k]? = some inv) (hm : inv.isMounted = false) :
    guardedSettle k true s = s := by
  unfold guardedSettle; rw [h]; simp [hm]

theorem guardedSettle_live (k : Nat) (s : GuardedState) (inv : Invocation)
    (h : s.invocations[k]? = some inv) (hm : inv.isMounted = true) :
    guardedSettle k true s =
      { s with display :=
          { data := some (fetchUserData inv.userId), loading := false } } := by
  unfold guardedSettle; rw [h]; simp [hm]

theorem guardedSettle_invocations (k : Nat) (ok : Bool) (s : GuardedState) :
    (guardedSettle k ok s).invocations = s.invocations := by
  unfold guardedSettle
  split
  · rfl
  · split
    · split <;> rfl
    · rfl

theorem unguardedSettle_none (k : Nat) (ok : Bool) (s : UnguardedState)
    (h : s.invocations[k]? = none) : unguardedSettle k ok s = s := by
  unfold unguardedSettle; rw [h]

theorem unguardedSettle_reject (k : Nat) (s : UnguardedState) :
    unguardedSettle k false s = s := by
  unfold unguardedSettle
  split
  · rfl
  · rfl

theorem unguardedSettle_resolve (k : Nat) (s : UnguardedState) (uid : Nat)
    (h : s.invocations[k]? = some uid) :
    unguardedSettle k true s =
      { s with display :=
          { data := some (fetchUserData uid), loading := false } } := by
  unfold unguardedSettle; rw [h]; rfl

theorem unguardedSettle_invocations (k : Nat) (ok : Bool) (s : UnguardedState) :
    (unguardedSettle k ok s).invocations = s.invocations := by
  unfold unguardedSettle
  split
  · rfl
  · split <;> rfl

/-! ## The liveness-exclusivity invariant of the guarded controller -/

/-- All invocations except possibly the most recent one have a dead
liveness flag. -/
def tailDead (s : GuardedState) : Bool :=
  s.invocations.dropLast.all fun inv => !inv.isMounted

theorem invalidateLast_all_dead (invs : List Invocation)
    (h : (invs.dropLast.all fun inv => !inv.isMounted) = true) :
    ((invalidateLast invs).all fun inv => !inv.isMounted) = true := by
  induction invs using List.reverseRecOn with
  | nil => rfl
  | append_singleton xs x _ =>
    rw [invalidateLast_concat]
    rw [List.dropLast_concat] at h
    simp only [List.all_append, h, Bool.true_and]
    rfl

theorem guardedStep_tailDead (s : GuardedState) (e : Event)
    (h : tailDead s = true) : tailDead (guardedStep s e) = true := by
  cases e with
  | change uid =>
    show ((invalidateLast s.invocations ++
      [({ userId := uid, isMounted := true } : Invocation)]).dropLast.all fun inv => !inv.isMounted) = true
    rw [List.dropLast_concat]
    exact invalidateLast_all_dead _ h
  | settle k ok =>
    show ((guardedSettle k ok s).invocations.dropLast.all fun inv => !inv.isMounted) = true
    rw [guardedSettle_invocations]
    exact h

theorem guardedFold_tailDead (es : List Event) :
    ∀ s : GuardedState, tailDead s = true → tailDead (es.foldl guardedStep s) = true := by
  induction es with
  | nil => exact fun s h => h
  | cons e es ih => exact fun s h => ih _ (guardedStep_tailDead s e h)

theorem guardedRun_tailDead (es : List Event) : tailDead (guardedRun es) = true :=
  guardedFold_tailDead es guardedInit rfl

theorem live_count_le_one (invs : List Invocation)
    (h : (invs.dropLast.all fun inv => !inv.isMounted) = true) :
    (invs.filter fun inv => inv.isMounted).length ≤ 1 := by
  induction invs using List.reverseRecOn with
  | nil => simp
  | append_singleton xs x _ =>
    rw [List.dropLast_concat] at h
    rw [List.filter_append]
    have hxs : (xs.filter fun inv => inv.isMounted) = [] := by
      rw [List.filter_eq_nil_iff]
      intro a ha
      have ha' := List.all_eq_true.mp h a ha
      simp only [Bool.not_eq_true'] at ha'
      simp [ha']
    rw [hxs]
    cases hx : x.isMounted <;> simp [List.filter_cons, hx]

/-! ## Monotonicity of a dead liveness flag -/

theorem invalidateLast_getElem?_dead (invs : List Invocation) (k : Nat)
    (h : invs[k]?.map Invocation.isMounted = some false) :
    (invalidateLast invs)[k]?.map Invocation.isMounted = some false := by
  induction invs using List.reverseRecOn with
  | nil => simp at h
  | append_singleton xs x _ =>
    rw [invalidateLast_concat]
    rcases Nat.lt_trichotomy k xs.length with hk | hk | hk
    · rw [List.getElem?_append_left hk] at h ⊢
      exact h
    · subst hk
      rw [List.getElem?_append_right (Nat.le_refl _)]
      simp
    · rw [List.getElem?_append_right (Nat.le_of_lt hk)] at h
      rw [List.getElem?_eq_none (by simp; omega)] at h
      simp at h

theorem guardedStep_dead_mono (s : GuardedState) (e : Event) (k : Nat)
    (h : s.invocations[k]?.map Invocation.isMounted = some false) :
    (guardedStep s e).invocations[k]?.map Invocation.isMounted = some false := by
  cases e with
  | change uid =>
    show ((invalidateLast s.invocations ++
      [({ userId := uid, isMounted := true } : Invocation)])[k]?.map Invocation.isMounted)
      = some false
    have hk : k < s.invocations.length := by
      by_contra hk
      rw [List.getElem?_eq_none (Nat.le_of_not_lt hk)] at h
      simp at h
    have hk' : k < (invalidateLast s.invocations).length := by
      rwa [length_invalidateLast]
    rw [List.getElem?_append_left hk']
    exact invalidateLast_getElem?_dead _ _ h
  | settle j ok =>
    show ((guardedSettle j ok s).invocations[k]?.map Invocation.isMounted) = some false
    rw [guardedSettle_invocations]
    exact h

theorem guardedFold_dead_mono (more : List Event) :
    ∀ (s : GuardedState) (k : Nat),
      s.invocations[k]?.map Invocation.isMounted = some false →
      (more.foldl guardedStep s).invocations[k]?.map Invocation.isMounted = some false := by
  induction more with
  | nil => exact fun _ _ h => h
  | cons e es ih => exact fun s k h => ih _ _ (guardedStep_dead_mono s e k h)

/-! ## Resolutions after a superseding identifier change -/

theorem guardedSettle_on_pair (A B : Nat) (s : GuardedState)
    (hinv : s.invocations = [⟨A, false⟩, ⟨B, true⟩]) (k : Nat) :
    guardedSettle k true s =
      if k = 1 then
        { s with display := { data := some (fetchUserData B), loading := false } }
      else s := by
  match k with
  | 0 =>
    rw [if_neg (by decide : ¬ ((0 : Nat) = 1))]
    exact guardedSettle_stale 0 s ⟨A, false⟩ (by rw [hinv]; simp) rfl
  | 1 =>
    rw [if_pos rfl]
    exact guardedSettle_live 1 s ⟨B, true⟩ (by rw [hinv]; simp) rfl
  | (n + 2) =>
    rw [if_neg (by omega : ¬ (n + 2 = 1))]
    exact guardedSettle_none (n + 2) true s (by rw [hinv]; simp)

theorem guardedFoldSettles_pair (A B : Nat) (rs : List Nat) :
    ∀ s : GuardedState, s.invocations = [⟨A, false⟩, ⟨B, true⟩] →
    rs.foldl (fun t j => guardedSettle j true t) s =
      if 1 ∈ rs then
        { s with display := { data := some (fetchUserData B), loading := false } }
      else s := by
  induction rs with
  | nil => intro s _; simp
  | cons k rs ih =>
    intro s hinv
    rw [List.foldl_cons]
    by_cases hk : k = 1
    · subst hk
      rw [guardedSettle_on_pair A B s hinv 1, if_pos rfl]
      rw [ih { s with display := { data := some (fetchUserData B), loading := false } } hinv]
      rw [if_pos (List.mem_cons_self 1 rs)]
      split <;> rfl
    · rw [guardedSettle_on_pair A B s hinv k, if_neg hk]
      rw [ih s hinv]
      have hmem : ((1 : Nat) ∈ k :: rs) ↔ (1 ∈ rs) := by
        constructor
        · intro hc
          rcases List.mem_cons.mp hc with hc | hc
          · exact absurd hc.symm hk
          · exact hc
        · exact fun hc => List.mem_cons_of_mem _ hc
      by_cases h1 : 1 ∈ rs
      · rw [if_pos h1, if_pos (hmem.mpr h1)]
      · rw [if_neg h1, if_neg (fun hc => h1 (hmem.mp hc))]

/-! ## Claim theorems -/

/-- Claim C1: after the identifier changes from `A` to `B`, whatever
order the two invocations' resolutions arrive in afterwards (any
resolution schedule `rs` that contains cycle `B`'s resolution, e.g.
`B` first and `A` strictly later), the guarded controller (`WithCleanup`)
ends with `data = fetchUserData B`, whose `id` is `B` and — when
`A ≠ B` — never `A`. -/
theorem guarded_final_reflects_latest (A B : Nat) (rs : List Nat) (h : 1 ∈ rs) :
    ((guardedRun ([Event.change A, Event.change B] ++
        rs.map fun k => Event.settle k true)).display
      = { data := some (fetchUserData B), loading := false }) ∧
    ((guardedRun ([Event.change A, Event.change B] ++
        rs.map fun k => Event.settle k true)).display.data.map UserData.id
      = some B) ∧
    (A ≠ B →
      (guardedRun ([Event.change A, Event.change B] ++
          rs.map fun k => Event.settle k true)).display.data.map UserData.id
        ≠ some A) := by
  have key : (guardedRun ([Event.change A, Event.change B] ++
      rs.map fun k => Event.settle k true)).display
      = { data := some (fetchUserData B), loading := false } := by
    unfold guardedRun
    rw [List.foldl_append]
    have base : ([Event.change A, Event.change B]).foldl guardedStep guardedInit =
        ({ display := { data := none, loading := true },
           invocations := [⟨A, false⟩, ⟨B, true⟩] } : GuardedState) := rfl
    rw [base, List.foldl_map]
    show (List.foldl (fun t j => guardedSettle j true t)
        ({ display := { data := none, loading := true },
           invocations := [⟨A, false⟩, ⟨B, true⟩] } : GuardedState) rs).display
      = { data := some (fetchUserData B), loading := false }
    rw [guardedFoldSettles_pair A B rs _ rfl, if_pos h]
  refine ⟨key, ?_, ?_⟩
  · rw [key]; rfl
  · intro hne
    rw [key]
    simp only [Option.map_some']
    intro hc
    exact hne (Option.some.inj hc).symm

/-- Witness for C1 at `A = 1`, `B = 2`, with `B` resolving first and
`A` resolving strictly after it. -/
theorem guarded_final_reflects_latest_witness :
    ((1 : Nat) ∈ [1, 0]) ∧
    ((guardedRun ([Event.change 1, Event.change 2] ++
        [1, 0].map fun k => Event.settle k true)).display
      = { data := some (fetchUserData 2), loading := false }) :=
  ⟨by decide, (guarded_final_reflects_latest 1 2 [1, 0] (by decide)).1⟩

/-- Claim C2: in the unguarded controller (`WithoutCleanup`) every
resolution unconditionally applies `loading = false` and
`data = Result`; consequently, when the identifier changes from `A` to
`B` and `A`'s invocation resolves after `B`'s, the final display state
carries `A`'s result. -/
theorem unguarded_applies_unconditionally :
    (∀ (s : UnguardedState) (k uid : Nat), s.invocations[k]? = some uid →
      (unguardedSettle k true s).display
        = { data := some (fetchUserData uid), loading := false }) ∧
    (∀ A B : Nat,
      (unguardedRun [Event.change A, Event.change B,
          Event.settle 1 true, Event.settle 0 true]).display
        = { data := some (fetchUserData A), loading := false }) := by
  constructor
  · intro s k uid h
    rw [unguardedSettle_resolve k s uid h]
  · intro A B
    rfl

/-- Witness for C2: a concrete resolution on a one-invocation state. -/
theorem unguarded_applies_unconditionally_witness :
    (({ display := { data := none, loading := true },
        invocations := [7] } : UnguardedState).invocations[0]? = some 7) ∧
    ((unguardedSettle 0 true
        { display := { data := none, loading := true }, invocations := [7] }).display
      = { data := some (fetchUserData 7), loading := false }) :=
  ⟨rfl, unguarded_applies_unconditionally.1 _ 0 7 rfl⟩

/-- Claim C3: on every reachable state of the guarded controller at most
one started invocation's liveness flag is true (all flags outside the
most recent cycle are dead), and at the teardown point that precedes the
start of the next cycle's invocation every flag — in particular the
previous cycle's — is already false. -/
theorem guarded_liveness_exclusive : ∀ es : List Event,
    (((guardedRun es).invocations.filter fun inv => inv.isMounted).length ≤ 1) ∧
    (((guardedRun es).invocations.dropLast.all fun inv => !inv.isMounted) = true) ∧
    (((teardown (guardedRun es)).invocations.all fun inv => !inv.isMounted) = true) := by
  intro es
  have h := guardedRun_tailDead es
  unfold tailDead at h
  refine ⟨live_count_le_one _ h, h, ?_⟩
  show ((invalidateLast (guardedRun es).invocations).all fun inv => !inv.isMounted) = true
  exact invalidateLast_all_dead _ h

/-- Claim C4: the simulated remote source is a pure contract — the
result `{id, name, email}` is derived deterministically from the
identifier, and the delay is the deterministic function
`userId === 1 ? 3000 : 1000`, with the spec's two instances
3000 for identifier 1 and 1000 for identifier 2. -/
theorem fetchUserData_contract :
    (∀ uid : Nat, fetchUserData uid =
      { id := uid, name := "User " ++ toString uid,
        email := "user" ++ toString uid ++ "@example.com" }) ∧
    (∀ uid : Nat, (fetchUserData uid).id = uid) ∧
    (∀ uid : Nat, fetchDelay uid = if uid = 1 then 3000 else 1000) ∧
    fetchDelay 1 = 3000 ∧ fetchDelay 2 = 1000 :=
  ⟨fun _ => rfl, fun _ => rfl, fun _ => rfl, by decide, by decide⟩

/-- Claim C5: the guarded completion handler is a frame: when the
invocation's scoped liveness flag is false it performs no state mutation
at all (DISCARD), and when the flag is true it applies `data = Result`
and `loading = false` while leaving the invocation record untouched
(APPLY_RESULT). -/
theorem guarded_settle_frame (s : GuardedState) (k : Nat) (inv : Invocation)
    (h : s.invocations[k]? = some inv) :
    (inv.isMounted = false → guardedSettle k true s = s) ∧
    (inv.isMounted = true →
      (guardedSettle k true s).display
          = { data := some (fetchUserData inv.userId), loading := false } ∧
      (guardedSettle k true s).invocations = s.invocations) := by
  constructor
  · intro hm
    exact guardedSettle_stale k s inv h hm
  · intro hm
    rw [guardedSettle_live k s inv h hm]
    exact ⟨rfl, rfl⟩

/-- Witness for C5: the stale invocation of cycle 0 after a supersession
is discarded without any mutation. -/
theorem guarded_settle_frame_witness :
    ((guardedRun [Event.change 1, Event.change 2]).invocations[0]?
      = some ⟨1, false⟩) ∧
    (guardedSettle 0 true (guardedRun [Event.change 1, Event.change 2])
      = guardedRun [Event.change 1, Event.change 2]) :=
  ⟨by decide, (guarded_settle_frame _ 0 ⟨1, false⟩ (by decide)).1 rfl⟩

/-- Claim C7: a liveness flag once set false is never reset true (a dead
flag stays dead under every extension of the execution), and an
identifier change always performs the teardown of the previous cycle
strictly before the start of the next cycle. -/
theorem guarded_flag_dead_forever :
    (∀ (s : GuardedState) (uid : Nat),
      guardedStep s (Event.change uid) = startCycle uid (teardown s)) ∧
    (∀ (es more : List Event) (k : Nat),
      (guardedRun es).invocations[k]?.map Invocation.isMounted = some false →
      (guardedRun (es ++ more)).invocations[k]?.map Invocation.isMounted
        = some false) := by
  constructor
  · intro s uid
    rfl
  · intro es more k h
    unfold guardedRun
    rw [List.foldl_append]
    exact guardedFold_dead_mono more _ k h

/-- Witness for C7: cycle 0's flag, dead after the supersession, stays
dead after further resolutions. -/
theorem guarded_flag_dead_forever_witness :
    ((guardedRun [Event.change 1, Event.change 2]).invocations[0]?.map
      Invocation.isMounted = some false) ∧
    ((guardedRun ([Event.change 1, Event.change 2] ++
        [Event.settle 1 true, Event.settle 0 true])).invocations[0]?.map
      Invocation.isMounted = some false) :=
  ⟨by decide, guarded_flag_dead_forever.2 [Event.change 1, Event.change 2]
    [Event.settle 1 true, Event.settle 0 true] 0 (by decide)⟩

/-- Claim C6 counterexample: the guarded controller registers no
rejection handler, so when the promise of the live (most recent, flag
still true) invocation is rejected, `loading` is NOT cleared and no
error state is set — contradicting the claim that a live failure clears
`loading`. -/
theorem guarded_live_failure_keeps_loading :
    ((guardedRun [Event.change 1]).invocations[0]?.map Invocation.isMounted
      = some true) ∧
    ((guardedSettle 0 false (guardedRun [Event.change 1])).display.loading
      = true) ∧
    ((guardedSettle 0 false (guardedRun [Event.change 1])).display.data
      = none) :=
  ⟨rfl, rfl, rfl⟩

/-- Claim C6 (amended): a rejection of any invocation's promise — live
or superseded — runs no completion code in the guarded controller and
therefore mutates nothing: a superseded failure is discarded exactly
like a stale success, but a live failure likewise leaves the state (in
particular `loading = true`) untouched, and no error state exists. -/
theorem guarded_failure_no_mutation : ∀ (s : GuardedState) (k : Nat),
    guardedSettle k false s = s :=
  fun s k => guardedSettle_reject k s

/-- Claim C9: forcing a second resolution of the same invocation leaves
the state of either controller exactly where the first resolution left
it. -/
theorem settle_idempotent (k : Nat) :
    (∀ s : GuardedState,
      guardedSettle k true (guardedSettle k true s) = guardedSettle k true s) ∧
    (∀ s : UnguardedState,
      unguardedSettle k true (unguardedSettle k true s)
        = unguardedSettle k true s) := by
  constructor
  · intro s
    cases h : s.invocations[k]? with
    | none => rw [guardedSettle_none k true s h, guardedSettle_none k true s h]
    | some inv =>
      cases hm : inv.isMounted with
      | false =>
        rw [guardedSettle_stale k s inv h hm, guardedSettle_stale k s inv h hm]
      | true =>
        rw [guardedSettle_live k s inv h hm]
        have h2 : ({ s with display :=
            { data := some (fetchUserData inv.userId), loading := false } }
              : GuardedState).invocations[k]? = some inv := h
        rw [guardedSettle_live k _ inv h2 hm]
  · intro s
    cases h : s.invocations[k]? with
    | none => rw [unguardedSettle_none k true s h, unguardedSettle_none k true s h]
    | some uid =>
      rw [unguardedSettle_resolve k s uid h]
      have h2 : ({ s with display :=
          { data := some (fetchUserData uid), loading := false } }
            : UnguardedState).invocations[k]? = some uid := h
      rw [unguardedSettle_resolve k _ uid h2]

/-! ## Display-state invariant (loading vs data) -/

/-- Invariant of a display state: `loading = false` only ever holds
together with fetched data. -/
def displayOk (d : Display) : Prop :=
  d.loading = false → d.data.isSome = true

theorem guardedStep_displayOk (s : GuardedState) (e : Event)
    (h : displayOk s.display) : displayOk (guardedStep s e).display := by
  cases e with
  | change uid =>
    intro hl
    simp [guardedStep, startCycle, teardown] at hl
  | settle k ok =>
    show displayOk (guardedSettle k ok s).display
    cases hk : s.invocations[k]? with
    | none => rw [guardedSettle_none k ok s hk]; exact h
    | some inv =>
      cases ok with
      | false => rw [guardedSettle_reject k s]; exact h
      | true =>
        cases hm : inv.isMounted with
        | false => rw [guardedSettle_stale k s inv hk hm]; exact h
        | true =>
          rw [guardedSettle_live k s inv hk hm]
          intro _
          rfl

theorem unguardedStep_displayOk (s : UnguardedState) (e : Event)
    (h : displayOk s.display) : displayOk (unguardedStep s e).display := by
  cases e with
  | change uid =>
    intro hl
    simp [unguardedStep] at hl
  | settle k ok =>
    show displayOk (unguardedSettle k ok s).display
    cases hk : s.invocations[k]? with
    | none => rw [unguardedSettle_none k ok s hk]; exact h
    | some uid =>
      cases ok with
      | false => rw [unguardedSettle_reject k s]; exact h
      | true =>
        rw [unguardedSettle_resolve k s uid hk]
        intro _
        rfl

theorem guardedFold_displayOk (es : List Event) :
    ∀ s : GuardedState, displayOk s.display →
      displayOk ((es.foldl guardedStep s)).display := by
  induction es with
  | nil => exact fun _ h => h
  | cons e es ih => exact fun s h => ih _ (guardedStep_displayOk s e h)

theorem unguardedFold_displayOk (es : List Event) :
    ∀ s : UnguardedState, displayOk s.display →
      displayOk ((es.foldl unguardedStep s)).display := by
  induction es with
  | nil => exact fun _ h => h
  | cons e es ih => exact fun s h => ih _ (unguardedStep_displayOk s e h)

/-- Claim C10: both controllers start with `data = null, loading = true`;
in every reachable state `loading = false` implies `data` is non-null;
and the only step that turns `loading` from true to false is a
successful resolution, which in the very same step stores a non-null
result. -/
theorem loading_false_implies_data :
    (guardedInit.display = { data := none, loading := true }) ∧
    (unguardedInit.display = { data := none, loading := true }) ∧
    (∀ es : List Event, (guardedRun es).display.loading = false →
      ((guardedRun es).display.data).isSome = true) ∧
    (∀ es : List Event, (unguardedRun es).display.loading = false →
      ((unguardedRun es).display.data).isSome = true) ∧
    (∀ (s : GuardedState) (e : Event), s.display.loading = true →
      (guardedStep s e).display.loading = false →
      ∃ (k : Nat) (inv : Invocation), e = Event.settle k true ∧
        s.invocations[k]? = some inv ∧ inv.isMounted = true ∧
        (guardedStep s e).display
          = { data := some (fetchUserData inv.userId), loading := false }) ∧
    (∀ (s : UnguardedState) (e : Event), s.display.loading = true →
      (unguardedStep s e).display.loading = false →
      ∃ (k uid : Nat), e = Event.settle k true ∧
        s.invocations[k]? = some uid ∧
        (unguardedStep s e).display
          = { data := some (fetchUserData uid), loading := false }) := by
  refine ⟨rfl, rfl, ?_, ?_, ?_, ?_⟩
  · exact fun es => guardedFold_displayOk es guardedInit (fun hl => Bool.noConfusion hl)
  · exact fun es => unguardedFold_displayOk es unguardedInit (fun hl => Bool.noConfusion hl)
  · intro s e h1 h2
    cases e with
    | change uid => simp [guardedStep, startCycle, teardown] at h2
    | settle k ok =>
      rw [show guardedStep s (Event.settle k ok) = guardedSettle k ok s from rfl] at h2 ⊢
      cases hk : s.invocations[k]? with
      | none =>
        rw [guardedSettle_none k ok s hk, h1] at h2
        exact Bool.noConfusion h2
      | some inv =>
        cases ok with
        | false =>
          rw [guardedSettle_reject k s, h1] at h2
          exact Bool.noConfusion h2
        | true =>
          cases hm : inv.isMounted with
          | false =>
            rw [guardedSettle_stale k s inv hk hm, h1] at h2
            exact Bool.noConfusion h2
          | true =>
            refine ⟨k, inv, rfl, hk, hm, ?_⟩
            rw [guardedSettle_live k s inv hk hm]
  · intro s e h1 h2
    cases e with
    | change uid => simp [unguardedStep] at h2
    | settle k ok =>
      rw [show unguardedStep s (Event.settle k ok) = unguardedSettle k ok s from rfl] at h2 ⊢
      cases hk : s.invocations[k]? with
      | none =>
        rw [unguardedSettle_none k ok s hk, h1] at h2
        exact Bool.noConfusion h2
      | some uid =>
        cases ok with
        | false =>
          rw [unguardedSettle_reject k s, h1] at h2
          exact Bool.noConfusion h2
        | true =>
          refine ⟨k, uid, rfl, hk, ?_⟩
          rw [unguardedSettle_resolve k s uid hk]

/-- Witness for C10 on both controllers after a completed first fetch. -/
theorem loading_false_implies_data_witness :
    ((guardedRun [Event.change 1, Event.settle 0 true]).display.loading = false) ∧
    (((guardedRun [Event.change 1, Event.settle 0 true]).display.data).isSome
      = true) ∧
    ((unguardedRun [Event.change 1, Event.settle 0 true]).display.loading
      = false) ∧
    (((unguardedRun [Event.change 1, Event.settle 0 true]).display.data).isSome
      = true) :=
  ⟨rfl, loading_false_implies_data.2.2.1 [Event.change 1, Event.settle 0 true] rfl,
   rfl, loading_false_implies_data.2.2.2.1 [Event.change 1, Event.settle 0 true] rfl⟩

/-! ## The trace/log sink

Re-transcription of both controllers with the `console.log` sink
present: each step additionally returns the log lines the source emits
during that step, in program order.  The pure step functions above are
the same controllers with the sink absent. -/

/-- The ANSI-coloured tag `WithCleanup` prefixes to its log lines and
passes as `msg` to `fetchUserData`. -/
def withCleanupTag : String := "\x1b[32m[WITH CLEANUP]\x1b[0m"

/-- The ANSI-coloured tag `WithoutCleanup` prefixes to its log lines and
passes as `msg` to `fetchUserData`. -/
def withoutCleanupTag : String := "\x1b[31m[WITHOUT CLEANUP]\x1b[0m"

/-- The line `${msg}Fetching user ${userId}...` logged when
`fetchUserData` is called. -/
def fetchCallLog (msg : String) (userId : Nat) : String :=
  msg ++ "Fetching user " ++ toString userId ++ "..."

/-- The line `${msg}Received data for user ${userId}` logged inside the
`setTimeout` callback just before the promise resolves. -/
def fetchDoneLog (msg : String) (userId : Nat) : String :=
  msg ++ "Received data for user " ++ toString userId

/-- One step of `WithCleanup` with the log sink present. -/
def guardedStepL (s : GuardedState) : Event → GuardedState × List String
  | .change uid =>
      ({ display := { s.display with loading := true }
         invocations := invalidateLast s.invocations ++
           [{ userId := uid, isMounted := true }] },
       (match s.invocations.getLast? with
        | none => []
        | some prev =>
            [withCleanupTag ++ " Cleanup for userId=" ++ toString prev.userId]) ++
       [withCleanupTag ++ " Effect running for userId=" ++ toString uid,
        withCleanupTag ++ " fetchUser called for userId=" ++ toString uid,
        fetchCallLog withCleanupTag uid])
  | .settle k ok =>
      match s.invocations[k]? with
      | none => (s, [])
      | some inv =>
        if ok then
          if inv.isMounted then
            ({ s with display :=
                { data := some (fetchUserData inv.userId), loading := false } },
             [fetchDoneLog withCleanupTag inv.userId,
              withCleanupTag ++ " Setting state for userId=" ++
                toString inv.userId ++ " (isMounted=true)"])
          else
            (s, [fetchDoneLog withCleanupTag inv.userId,
                 withCleanupTag ++ " Ignoring response for userId=" ++
                   toString inv.userId ++ " (isMounted=false)"])
        else (s, [])

/-- One step of `WithoutCleanup` with the log sink present. -/
def unguardedStepL (s : UnguardedState) : Event → UnguardedState × List String
  | .change uid =>
      ({ display := { s.display with loading := true }
         invocations := s.invocations ++ [uid] },
       [withoutCleanupTag ++ " Effect running for userId=" ++ toString uid,
        fetchCallLog withoutCleanupTag uid])
  | .settle k ok =>
      match s.invocations[k]? with
      | none => (s, [])
      | some uid =>
        if ok then
          ({ s with display :=
              { data := some (fetchUserData uid), loading := false } },
           [fetchDoneLog withoutCleanupTag uid,
            withoutCleanupTag ++ " Setting state for userId=" ++ toString uid])
        else (s, [])

/-- Run `WithCleanup` with the sink present, accumulating the log. -/
def guardedRunL (es : List Event) : GuardedState × List String :=
  es.foldl (fun p e => ((guardedStepL p.1 e).1, p.2 ++ (guardedStepL p.1 e).2))
    (guardedInit, [])

/-- Run `WithoutCleanup` with the sink present, accumulating the log. -/
def unguardedRunL (es : List Event) : UnguardedState × List String :=
  es.foldl (fun p e => ((unguardedStepL p.1 e).1, p.2 ++ (unguardedStepL p.1 e).2))
    (unguardedInit, [])

theorem guardedStepL_fst (s : GuardedState) (e : Event) :
    (guardedStepL s e).1 = guardedStep s e := by
  cases e with
  | change uid => rfl
  | settle k ok =>
    show (guardedStepL s (Event.settle k ok)).1 = guardedSettle k ok s
    cases hk : s.invocations[k]? with
    | none => simp [guardedStepL, guardedSettle, hk]
    | some inv =>
      cases ok with
      | false => simp [guardedStepL, guardedSettle, hk]
      | true =>
        cases hm : inv.isMounted <;> simp [guardedStepL, guardedSettle, hk, hm]

theorem unguardedStepL_fst (s : UnguardedState) (e : Event) :
    (unguardedStepL s e).1 = unguardedStep s e := by
  cases e with
  | change uid => rfl
  | settle k ok =>
    show (unguardedStepL s (Event.settle k ok)).1 = unguardedSettle k ok s
    cases hk : s.invocations[k]? with
    | none => simp [unguardedStepL, unguardedSettle, hk]
    | some uid =>
      cases ok <;> simp [unguardedStepL, unguardedSettle, hk]

theorem guardedFoldL_fst (es : List Event) :
    ∀ (s : GuardedState) (l : List String),
      (es.foldl (fun p e => ((guardedStepL p.1 e).1, p.2 ++ (guardedStepL p.1 e).2))
        (s, l)).1 = es.foldl guardedStep s := by
  induction es with
  | nil => exact fun _ _ => rfl
  | cons e es ih =>
    intro s l
    rw [List.foldl_cons, List.foldl_cons, guardedStepL_fst]
    exact ih _ _

theorem unguardedFoldL_fst (es : List Event) :
    ∀ (s : UnguardedState) (l : List String),
      (es.foldl (fun p e => ((unguardedStepL p.1 e).1, p.2 ++ (unguardedStepL p.1 e).2))
        (s, l)).1 = es.foldl unguardedStep s := by
  induction es with
  | nil => exact fun _ _ => rfl
  | cons e es ih =>
    intro s l
    rw [List.foldl_cons, List.foldl_cons, unguardedStepL_fst]
    exact ih _ _

/-- Claim C8: the log sink is purely observational — for every input
sequence, each controller's state evolution with the sink present
(`guardedRunL`, `unguardedRunL`) is identical to the run with the sink
absent (`guardedRun`, `unguardedRun`); the log emissions feed nothing
back into control flow. -/
theorem sink_purely_observational : ∀ es : List Event,
    (guardedRunL es).1 = guardedRun es ∧ (unguardedRunL es).1 = unguardedRun es :=
  fun es => ⟨guardedFoldL_fst es guardedInit [], unguardedFoldL_fst es unguardedInit []⟩

end RaceDemo
